import Mathlib

/-!
Verification of the completion-candidate engine of `structurizr-completion`
(`src/completion.ts`), shallowly embedded in Lean 4.

The engine's external collaborators — the ANTLR lexer/parser pair, the
antlr4-c3 code-completion core (`collectCandidates`), the antlr4-c3 symbol
table, and the caller-supplied caret-to-token-position mapper — are modelled
as parameters of the embedded functions or as data carried by the embedded
structures, following the contracts the specification fixes for them.
JavaScript string builtins (`trim`, `toLowerCase`, `startsWith`) are modelled
by structurally recursive Lean functions over the character list of a
`String`; lowercasing is modelled on the ASCII range, which covers every
symbolic name and keyword of the two grammars.
-/

namespace StructurizrCompletion

/-! ## Models of the JavaScript string builtins -/

/-- Model of JavaScript `String.prototype.trim`: drop whitespace characters
from both ends of the string. -/
def jsTrim (s : String) : String :=
  ⟨((s.data.dropWhile Char.isWhitespace).reverse.dropWhile Char.isWhitespace).reverse⟩

/-- Model of lowercasing one character, on the ASCII range (all grammar
symbolic names and keywords are ASCII). -/
def jsCharToLower (c : Char) : Char :=
  if c.toNat ≥ 65 ∧ c.toNat ≤ 90 then Char.ofNat (c.toNat + 32) else c

/-- Model of JavaScript `String.prototype.toLowerCase`. -/
def jsToLowerCase (s : String) : String :=
  ⟨s.data.map jsCharToLower⟩

/-- Character-list recursion behind `jsStartsWith`. -/
def charsStartWith : List Char → List Char → Bool
  | _, [] => true
  | [], _ :: _ => false
  | c :: cs, d :: ds => c == d && charsStartWith cs ds

/-- Model of JavaScript `s.startsWith(pat)`. -/
def jsStartsWith (s pat : String) : Bool :=
  charsStartWith s.data pat.data

/-! ## Data model

The symbol table built by the external collaborator is a tree of symbols; a
`ScopedSymbol` owns members, a `VariableSymbol` is a leaf. `getAllSymbolsSync`
with `localOnly = true` on a scope yields the symbols of the requested kind
declared directly in that scope. -/

/-- The symbol classes relevant to the engine: `VariableSymbol`,
`ScopedSymbol`, and any other (non-scoped, non-variable) symbol class. -/
inductive SymbolKind where
  | variableKind
  | scopeKind
  | otherKind
deriving DecidableEq, BEq

/-- A symbol of the external symbol table: a variable, a scope owning member
symbols, or some other non-scoped symbol. -/
inductive Sym where
  | variableSym (name : String)
  | scopeSym (name : String) (members : List Sym)
  | otherSym (name : String)

/-- The name of a symbol. -/
def Sym.name : Sym → String
  | .variableSym n => n
  | .scopeSym n _ => n
  | .otherSym n => n

/-- The class of a symbol, as tested by `instanceof` in the source. -/
def Sym.kind : Sym → SymbolKind
  | .variableSym _ => .variableKind
  | .scopeSym _ _ => .scopeKind
  | .otherSym _ => .otherKind

/-- Modelled from the spec: the external symbol table's
`getAllSymbolsSync(type, localOnly := true)` on a scope — the symbols of the
requested kind declared directly in that scope (§4.2; the repository's
grammars declare no namespace symbols, so no further recursion applies). -/
def symbolsOfKind (kind : SymbolKind) (members : List Sym) : List Sym :=
  members.filter (fun s => s.kind == kind)

/-- `getAllSymbolsOfType` from the source. A scope is given as its member
list together with the list of its ancestor symbols, nearest first. The
source collects the scope's local symbols of the requested kind
(`getAllSymbolsSync(type, true)`), then runs
`while(parent && !(parent instanceof ScopedSymbol)) parent = parent.parent`
to skip non-scope ancestors, and recurses at the nearest enclosing
`ScopedSymbol`, appending its result. -/
def getAllSymbolsOfType (kind : SymbolKind) : List Sym → List Sym → List Sym
  | members, [] => symbolsOfKind kind members
  | members, Sym.scopeSym _ ms :: rest =>
      symbolsOfKind kind members ++ getAllSymbolsOfType kind ms rest
  | members, Sym.variableSym _ :: rest => getAllSymbolsOfType kind members rest
  | members, Sym.otherSym _ :: rest => getAllSymbolsOfType kind members rest

/-- What the external symbol table answers for one parse-tree node: either a
`ScopedSymbol` (given as its members plus its ancestor chain, for
`getAllSymbolsOfType`), or a symbol that is not a `ScopedSymbol`. -/
inductive ScopeRef where
  | scoped (members : List Sym) (ancestors : List Sym)
  | plain

/-- A parse-tree node as the engine observes it: whether it is a
`VariableReadContext`, the token type when it is a `TerminalNode`, and the
external symbol table's `symbolWithContextSync` answer for it. -/
structure PNode where
  isVariableRead : Bool
  termType : Option Nat
  attached : Option ScopeRef

/-- The caret's token position (`types.ts`): token index, the context node
followed by its ancestor chain up to the parse-tree root (`[]` models an
absent context node), and the text already typed at the caret. -/
structure TokenPosition where
  index : Nat
  context : List PNode
  text : String

/-- A caret position, `{line, column}` (modelled from the spec, §6). -/
structure CaretPosition where
  line : Nat
  column : Nat

/-- The antlr4-c3 `CandidatesCollection`: the viable token types (the keys of
`candidates.tokens`, in iteration order) and the matched rule indices
(`candidates.rules`). -/
structure CandidatesCollection where
  tokens : List Nat
  rules : List Nat

/-! ## Scope resolution and variable suggestion -/

/-- `getScope` from the source: walk the node's ancestor chain and return the
first symbol the table attaches to a node on it; `none` when the chain is
exhausted or the starting node is absent. -/
def getScope : List PNode → Option ScopeRef
  | [] => none
  | n :: rest =>
    match n.attached with
    | some scope => some scope
    | none => getScope rest

/-- The loop `while(!(variable instanceof VariableReadContext) && variable.parent)`
from `suggestVariables`: starting at the context node, walk upward until a
`VariableReadContext` or the parse-tree root is reached. `none` models the
JavaScript `undefined` (only possible for an absent starting node). -/
def walkVar : List PNode → Option PNode
  | [] => none
  | n :: rest =>
    if n.isVariableRead then some n
    else
      match rest with
      | [] => some n
      | m :: ms => walkVar (m :: ms)

/-- The symbol lookup of `suggestVariables`: `getScope`, then
`getAllSymbolsOfType(scope, VariableSymbol)` for a local (`ScopedSymbol`)
scope, or `symbolTable.getAllSymbolsSync(VariableSymbol, false)` — the
variable symbols declared directly in the global scope, since the table has
no parent and no dependencies — otherwise. `symbolTable` is the global
scope's member list. -/
def resolvedVariableSymbols (symbolTable : List Sym) (context : List PNode) : List Sym :=
  match getScope context with
  | some (ScopeRef.scoped members ancestors) =>
      getAllSymbolsOfType SymbolKind.variableKind members ancestors
  | _ => symbolsOfKind SymbolKind.variableKind symbolTable

/-- `filterTokens_startsWith` from the source:
`text.trim().length == 0 ? candidates : candidates.filter(c => c.toLowerCase().startsWith(text.toLowerCase()))`. -/
def filterTokens_startsWith (text : String) (candidates : List String) : List String :=
  if (jsTrim text).length = 0 then candidates
  else candidates.filter (fun c => jsStartsWith (jsToLowerCase c) (jsToLowerCase text))

/-- `filterTokens`, the active matching strategy; its default value is
`filterTokens_startsWith` (the mutable rebinding via `setTokenMatcher` is not
modelled — every claim is about the default strategy). -/
def filterTokens : String → List String → List String :=
  filterTokens_startsWith

/-- `suggestVariables` from the source. Returns `none` when the source
throws: with an absent context node, the loop condition
`variable.parent` dereferences `undefined` (a `TypeError`). After the loop,
`variable` holds a parse-tree node object, and JavaScript object references
are truthy, which `Option.isSome` of `walkVar` models in the ternary
`variable ? position.text : ''`. -/
def suggestVariables (symbolTable : List Sym) (position : TokenPosition) :
    Option (List String) :=
  match position.context with
  | [] => none
  | n :: rest =>
    let symbols := resolvedVariableSymbols symbolTable (n :: rest)
    let variableNode := walkVar (n :: rest)
    some (filterTokens (if variableNode.isSome then position.text else "")
      (symbols.map Sym.name))

/-! ## Candidate translators -/

/-- `position.context instanceof TerminalNode && ignored.indexOf(position.context.symbol.type) >= 0`:
the caret's context node is a terminal token whose type is in the ignore
list. -/
def isIgnoredContextToken (ignored : List Nat) (context : List PNode) : Bool :=
  match context with
  | n :: _ =>
    match n.termType with
    | some ty => ignored.contains ty
    | none => false
  | [] => false

/-- The token-rendering loop of the DSL translator
(`getSuggestionsForParseTree`): skip the identifier token type, render every
other candidate token type via its lowercased symbolic vocabulary name, and
silently drop token types without a symbolic name. -/
def structurizrRenderedTokens (idType : Nat) (vocab : Nat → Option String)
    (tokenKeys : List Nat) : List String :=
  tokenKeys.filterMap (fun k =>
    if k = idType then none
    else
      match vocab k with
      | some symbolicName => some (jsToLowerCase symbolicName)
      | none => none)

/-- `getSuggestionsForParseTree` from the source (DSL grammar). `nl` and
`idType` are `StructurizrParser.NL` and `StructurizrParser.ID`; `vocab` is
`parser.vocabulary.getSymbolicName`; `collectCandidates` is the configured
antlr4-c3 core over this parser. The `parseTree` and `symbolTableFn`
parameters of the source are not used by its body; `symbolTableFn` is kept,
`parseTree` is folded into `collectCandidates`. -/
def getSuggestionsForParseTree (nl idType : Nat) (vocab : Nat → Option String)
    (collectCandidates : Nat → CandidatesCollection)
    (symbolTableFn : Unit → List Sym) (position : TokenPosition) : List String :=
  let ignored : List Nat := [nl]
  let candidates := collectCandidates position.index
  let tokens := structurizrRenderedTokens idType vocab candidates.tokens
  let textToMatch :=
    if isIgnoredContextToken ignored position.context then "" else position.text
  filterTokens textToMatch tokens

/-- The token-type constants of the generated Kotlin parser that the
translator names, plus the two preferred rule indices. The generated parser
is an external artifact; the constants are abstract numbers here. -/
structure KotlinTokenTypes where
  FILE : Nat
  Identifier : Nat
  NOT_IN : Nat
  NOT_IS : Nat
  BinLiteral : Nat
  BooleanLiteral : Nat
  CharacterLiteral : Nat
  DoubleLiteral : Nat
  HexLiteral : Nat
  IntegerLiteral : Nat
  LongLiteral : Nat
  NullLiteral : Nat
  RealLiteral : Nat
  DelimitedComment : Nat
  LineComment : Nat
  QUOTE_OPEN : Nat
  QUOTE_CLOSE : Nat
  TRIPLE_QUOTE_OPEN : Nat
  LabelDefinition : Nat
  LabelReference : Nat
  RULE_variableRead : Nat
  RULE_suggestArgument : Nat

/-- The ignore list built by `getSuggestionsForParseTreeK`:
`Array.from(Array(KotlinParser.FILE).keys())` — every token type below the
first keyword marker — then the literal, comment, string-delimiter and label
token types. -/
def kotlinIgnored (tt : KotlinTokenTypes) : List Nat :=
  List.range tt.FILE ++
    [tt.BinLiteral, tt.BooleanLiteral, tt.CharacterLiteral, tt.DoubleLiteral,
     tt.HexLiteral, tt.IntegerLiteral, tt.LongLiteral, tt.NullLiteral,
     tt.RealLiteral, tt.DelimitedComment, tt.LineComment] ++
    [tt.QUOTE_OPEN, tt.QUOTE_CLOSE, tt.TRIPLE_QUOTE_OPEN] ++
    [tt.LabelDefinition, tt.LabelReference]

/-- The rendering of one candidate token type in the Kotlin-like translator:
skip the identifier token type, render `NOT_IN` and `NOT_IS` as the literal
strings, and every other token type via its lowercased symbolic vocabulary
name (dropped when absent). -/
def kotlinRenderOne (tt : KotlinTokenTypes) (vocab : Nat → Option String)
    (k : Nat) : Option String :=
  if k = tt.Identifier then none
  else if k = tt.NOT_IN then some "!in"
  else if k = tt.NOT_IS then some "!is"
  else
    match vocab k with
    | some symbolicName => some (jsToLowerCase symbolicName)
    | none => none

/-- The token-rendering loop of the Kotlin-like translator. -/
def kotlinRenderedTokens (tt : KotlinTokenTypes) (vocab : Nat → Option String)
    (tokenKeys : List Nat) : List String :=
  tokenKeys.filterMap (kotlinRenderOne tt vocab)

/-- `getSuggestionsForParseTreeK` from the source (Kotlin-like grammar).
When the candidate rules include `RULE_variableRead` or
`RULE_suggestArgument`, the symbol table is built (`symbolTableFn ()`) and
`suggestVariables` runs first; a `none` from it models the `TypeError` the
source throws there, which aborts the whole call. The vocabulary-derived
tokens follow, filtered with the empty string when the caret's context node
is an ignored terminal and with `position.text` otherwise. -/
def getSuggestionsForParseTreeK (tt : KotlinTokenTypes)
    (vocab : Nat → Option String) (collectCandidates : Nat → CandidatesCollection)
    (symbolTableFn : Unit → List Sym) (position : TokenPosition) :
    Option (List String) :=
  let candidates := collectCandidates position.index
  let idPart : Option (List String) :=
    if candidates.rules.contains tt.RULE_variableRead
        || candidates.rules.contains tt.RULE_suggestArgument then
      suggestVariables (symbolTableFn ()) position
    else some []
  match idPart with
  | none => none
  | some completions =>
    let tokens := kotlinRenderedTokens tt vocab candidates.tokens
    let textToMatch :=
      if isIgnoredContextToken (kotlinIgnored tt) position.context then ""
      else position.text
    some (completions ++ filterTokens textToMatch tokens)

/-! ## Entry points

Lexing and parsing are external: `parse` stands for the lexer/parser chain
producing the parse artifacts (parse tree and token stream) of type `α`,
`collectCandidates` for the configured antlr4-c3 core over them, and
`symbolTableOf` for the lazy `() => new SymbolTableVisitorK().visit(parseTree)`
thunk. -/

/-- `getSuggestions` from the source (DSL entry point). -/
def getSuggestions {α : Type} (nl idType : Nat) (vocab : Nat → Option String)
    (parse : String → α) (collectCandidates : α → Nat → CandidatesCollection)
    (symbolTableOf : α → Unit → List Sym)
    (code : String) (caretPosition : CaretPosition)
    (computeTokenPosition : α → CaretPosition → Option TokenPosition) :
    List String :=
  let parseTree := parse code
  match computeTokenPosition parseTree caretPosition with
  | none => []
  | some position =>
    getSuggestionsForParseTree nl idType vocab (collectCandidates parseTree)
      (symbolTableOf parseTree) position

/-- `getSuggestionsK` from the source (Kotlin-like entry point); `none`
models the `TypeError` propagating out of the translator. -/
def getSuggestionsK {α : Type} (tt : KotlinTokenTypes)
    (vocab : Nat → Option String)
    (parse : String → α) (collectCandidates : α → Nat → CandidatesCollection)
    (symbolTableOf : α → Unit → List Sym)
    (code : String) (caretPosition : CaretPosition)
    (computeTokenPosition : α → CaretPosition → Option TokenPosition) :
    Option (List String) :=
  let parseTree := parse code
  match computeTokenPosition parseTree caretPosition with
  | none => some []
  | some position =>
    getSuggestionsForParseTreeK tt vocab (collectCandidates parseTree)
      (symbolTableOf parseTree) position

/-! ## Concrete sample data used by the witness theorems

Arbitrary but mutually distinct token-type numbers stand in for the
generated parsers' constants. -/

/-- Sample token-type constants for the Kotlin-like grammar: operator and
punctuation types below `FILE = 10`, literal/comment/quote/label types
30–45, identifier 50, negated operators 51 and 52, rule indices 100/101. -/
def sampleTT : KotlinTokenTypes where
  FILE := 10
  Identifier := 50
  NOT_IN := 51
  NOT_IS := 52
  BinLiteral := 30
  BooleanLiteral := 31
  CharacterLiteral := 32
  DoubleLiteral := 33
  HexLiteral := 34
  IntegerLiteral := 35
  LongLiteral := 36
  NullLiteral := 37
  RealLiteral := 38
  DelimitedComment := 39
  LineComment := 40
  QUOTE_OPEN := 41
  QUOTE_CLOSE := 42
  TRIPLE_QUOTE_OPEN := 43
  LabelDefinition := 44
  LabelReference := 45
  RULE_variableRead := 100
  RULE_suggestArgument := 101

/-- Sample vocabulary: token 60 has symbolic name `VAL`, token 61 `Fun`,
everything else is unnamed. -/
def sampleVocab : Nat → Option String :=
  fun k => if k = 60 then some "VAL" else if k = 61 then some "Fun" else none

/-- A vocabulary that also names the negated-operator token types 51 and 52,
to show that their rendering never consults it. -/
def spoofVocab : Nat → Option String :=
  fun k =>
    if k = 51 then some "NOT_IN_NAME"
    else if k = 52 then some "NOT_IS_NAME"
    else sampleVocab k

/-- A non-terminal parse node with no attached symbol. -/
def plainNode : PNode := { isVariableRead := false, termType := none, attached := none }

/-- A terminal parse node of the given token type, with no attached symbol. -/
def termNode (ty : Nat) : PNode :=
  { isVariableRead := false, termType := some ty, attached := none }

/-- A sample candidate engine: one vocabulary token (60) and the
variable-read rule are viable everywhere. -/
def trigCollect : Nat → CandidatesCollection := fun _ => ⟨[60], [100]⟩

/-- A sample candidate engine with no viable rules. -/
def noTrigCollect : Nat → CandidatesCollection := fun _ => ⟨[60], []⟩

/-- A sample symbol table whose global scope declares two variables that
share the name `val`. -/
def dupSymbolTableFn : Unit → List Sym :=
  fun _ => [Sym.variableSym "val", Sym.variableSym "val"]

/-- A sample symbol table whose global scope declares variables `x` and `y`. -/
def xySymbolTableFn : Unit → List Sym :=
  fun _ => [Sym.variableSym "x", Sym.variableSym "y"]

/-- A token position on a non-terminal context node with nothing typed. -/
def posPlain : TokenPosition := ⟨0, [plainNode], ""⟩

/-! ## Helper lemmas -/

/-- The variable-read walk never yields the JavaScript `undefined` when the
starting context node is present: the ternary's `: ''` branch in
`suggestVariables` is unreachable. -/
theorem walkVar_isSome : ∀ (rest : List PNode) (n : PNode), (walkVar (n :: rest)).isSome = true := by
  intro rest
  induction rest with
  | nil =>
    intro n
    by_cases h : n.isVariableRead <;> simp [walkVar, h]
  | cons m ms ih =>
    intro n
    by_cases h : n.isVariableRead
    · simp [walkVar, h]
    · simpa [walkVar, h] using ih m

/-- With a present context node, `suggestVariables` returns the resolved
variable names filtered with the typed text. -/
theorem suggestVariables_cons (st : List Sym) (idx : Nat) (text : String)
    (n : PNode) (rest : List PNode) :
    suggestVariables st ⟨idx, n :: rest, text⟩ =
      some (filterTokens text ((resolvedVariableSymbols st (n :: rest)).map Sym.name)) := by
  simp [suggestVariables, walkVar_isSome]

/-- The trimmed length is zero exactly when every character of the string is
whitespace (vacuously, also when the string is empty). -/
theorem jsTrim_length_eq_zero_iff (s : String) :
    (jsTrim s).length = 0 ↔ ∀ c ∈ s.data, c.isWhitespace = true := by
  have h1 : (jsTrim s).length =
      (((s.data.dropWhile Char.isWhitespace).reverse.dropWhile
        Char.isWhitespace).reverse).length := rfl
  rw [h1, List.length_reverse, List.length_eq_zero, List.dropWhile_eq_nil_iff]
  constructor
  · intro h c hc
    by_cases hdrop : c ∈ s.data.dropWhile Char.isWhitespace
    · exact h c (List.mem_reverse.mpr hdrop)
    · rw [← List.takeWhile_append_dropWhile (p := Char.isWhitespace) (l := s.data)] at hc
      rcases List.mem_append.mp hc with h1 | h2
      · exact List.mem_takeWhile_imp h1
      · exact absurd h2 hdrop
  · intro h c hc
    exact h c ((s.data.dropWhile_sublist Char.isWhitespace).subset (List.mem_reverse.mp hc))

/-- Filtering with the empty string keeps the candidate list unchanged. -/
theorem filterTokens_empty_text (candidates : List String) :
    filterTokens "" candidates = candidates := by
  simp [filterTokens, filterTokens_startsWith, jsTrim]

/-- The filter only ever keeps elements of the candidate list. -/
theorem mem_of_mem_filterTokens {text : String} {candidates : List String} {s : String}
    (h : s ∈ filterTokens text candidates) : s ∈ candidates := by
  unfold filterTokens filterTokens_startsWith at h
  by_cases h0 : (jsTrim text).length = 0
  · rwa [if_pos h0] at h
  · rw [if_neg h0] at h
    exact (List.mem_filter.mp h).1

/-- A terminal context node whose token type is in the ignore list makes
`isIgnoredContextToken` true. -/
theorem isIgnoredContextToken_true (ignored : List Nat) (n : PNode) (rest : List PNode)
    (ty : Nat) (hterm : n.termType = some ty) (hmem : ty ∈ ignored) :
    isIgnoredContextToken ignored (n :: rest) = true := by
  have h : isIgnoredContextToken ignored (n :: rest) =
      (match n.termType with
       | some ty => ignored.contains ty
       | none => false) := rfl
  rw [h, hterm]
  exact List.elem_iff.mpr hmem

/-- When the context is present and neither hypothesis of the identifier
path can throw, the Kotlin-like translator returns a list. -/
theorem getSuggestionsForParseTreeK_isSome (tt : KotlinTokenTypes)
    (vocab : Nat → Option String) (collect : Nat → CandidatesCollection)
    (stFn : Unit → List Sym) (position : TokenPosition)
    (h : position.context ≠ [] ∨
      (tt.RULE_variableRead ∉ (collect position.index).rules ∧
       tt.RULE_suggestArgument ∉ (collect position.index).rules)) :
    (getSuggestionsForParseTreeK tt vocab collect stFn position).isSome = true := by
  rcases position with ⟨idx, ctx, text⟩
  by_cases htrig : tt.RULE_variableRead ∈ (collect idx).rules ∨
      tt.RULE_suggestArgument ∈ (collect idx).rules
  · rcases ctx with _ | ⟨n, rest⟩
    · rcases h with hctx | ⟨hr1, hr2⟩
      · exact absurd rfl hctx
      · rcases htrig with ht | ht
        · exact absurd ht hr1
        · exact absurd ht hr2
    · simp [getSuggestionsForParseTreeK, htrig, suggestVariables_cons]
  · simp [getSuggestionsForParseTreeK, htrig]

/-! ## Claim theorems -/

/-- C2: the default filter is pure; for every blank (empty or all-whitespace)
text it returns the candidates unchanged in order, and for every other text
it returns exactly the subsequence of candidates whose lowercased form starts
with the lowercased text, preserving the original order. -/
theorem c2_default_filter_spec (text : String) (candidates : List String) :
    ((∀ c ∈ text.data, c.isWhitespace = true) →
      filterTokens_startsWith text candidates = candidates) ∧
    ((¬ ∀ c ∈ text.data, c.isWhitespace = true) →
      (filterTokens_startsWith text candidates).Sublist candidates ∧
      ∀ s, s ∈ filterTokens_startsWith text candidates ↔
        s ∈ candidates ∧ jsStartsWith (jsToLowerCase s) (jsToLowerCase text) = true) := by
  constructor
  · intro h
    rw [filterTokens_startsWith, if_pos ((jsTrim_length_eq_zero_iff text).mpr h)]
  · intro h
    have hne : ¬ (jsTrim text).length = 0 := fun h0 =>
      h ((jsTrim_length_eq_zero_iff text).mp h0)
    rw [filterTokens_startsWith, if_neg hne]
    exact ⟨List.filter_sublist _, fun s => by simp [List.mem_filter]⟩

/-- Witness for C2, on the spec's own examples: the all-whitespace text
`"  "` keeps the list unchanged, and `"Fo"` keeps exactly the candidates
that start with it case-insensitively, in order. -/
theorem c2_default_filter_spec_witness :
    ((∀ c ∈ ("  " : String).data, c.isWhitespace = true) ∧
      filterTokens_startsWith "  " ["foo", "bar"] = ["foo", "bar"]) ∧
    ((¬ ∀ c ∈ ("Fo" : String).data, c.isWhitespace = true) ∧
      (filterTokens_startsWith "Fo" ["foo", "Foobar", "bar"]).Sublist
        ["foo", "Foobar", "bar"] ∧
      filterTokens_startsWith "Fo" ["foo", "Foobar", "bar"] = ["foo", "Foobar"]) :=
  ⟨⟨by decide, (c2_default_filter_spec "  " ["foo", "bar"]).1 (by decide)⟩,
   ⟨by decide,
    ((c2_default_filter_spec "Fo" ["foo", "Foobar", "bar"]).2 (by decide)).1,
    by decide⟩⟩

/-- C5: for a scope chain A nested in B nested in the global scope C,
collecting the visible symbols of a kind from A yields exactly A's, then
B's, then C's direct symbols of that kind (nearest scope first); a symbol is
collected iff it is declared directly in A, B or C, so a symbol declared
only inside a sibling scope of A is never collected. -/
theorem c5_scope_chain_visibility (kind : SymbolKind) (nB nC : String)
    (mA mB mC : List Sym) :
    getAllSymbolsOfType kind mA [Sym.scopeSym nB mB, Sym.scopeSym nC mC] =
      symbolsOfKind kind mA ++ symbolsOfKind kind mB ++ symbolsOfKind kind mC ∧
    (∀ v, v ∈ getAllSymbolsOfType kind mA [Sym.scopeSym nB mB, Sym.scopeSym nC mC] ↔
      (v ∈ symbolsOfKind kind mA ∨ v ∈ symbolsOfKind kind mB ∨
        v ∈ symbolsOfKind kind mC)) ∧
    (∀ sibName sibMembers v, Sym.scopeSym sibName sibMembers ∈ mB →
      v ∈ symbolsOfKind kind sibMembers →
      v ∉ symbolsOfKind kind mA → v ∉ symbolsOfKind kind mB →
      v ∉ symbolsOfKind kind mC →
      v ∉ getAllSymbolsOfType kind mA [Sym.scopeSym nB mB, Sym.scopeSym nC mC]) := by
  have h : getAllSymbolsOfType kind mA [Sym.scopeSym nB mB, Sym.scopeSym nC mC] =
      symbolsOfKind kind mA ++ (symbolsOfKind kind mB ++ symbolsOfKind kind mC) := by
    simp [getAllSymbolsOfType]
  have hmem : ∀ v, v ∈ getAllSymbolsOfType kind mA
      [Sym.scopeSym nB mB, Sym.scopeSym nC mC] ↔
      (v ∈ symbolsOfKind kind mA ∨ v ∈ symbolsOfKind kind mB ∨
        v ∈ symbolsOfKind kind mC) := by
    intro v
    rw [h]
    simp [List.mem_append]
  refine ⟨by rw [h, List.append_assoc], hmem, ?_⟩
  intro sibName sibMembers v _ _ hA hB hC hv
  rcases (hmem v).mp hv with h1 | h2 | h3
  · exact hA h1
  · exact hB h2
  · exact hC h3

/-- Witness for C5: a concrete chain where A declares a, B declares b and
owns a sibling scope S declaring s, C declares c; the collection is exactly
a, b, c — nearest first and without the sibling's s. -/
theorem c5_scope_chain_visibility_witness :
    (getAllSymbolsOfType SymbolKind.variableKind [Sym.variableSym "a"]
      [Sym.scopeSym "B" [Sym.variableSym "b", Sym.scopeSym "S" [Sym.variableSym "s"]],
       Sym.scopeSym "C" [Sym.variableSym "c"]]).map Sym.name = ["a", "b", "c"] ∧
    Sym.variableSym "s" ∉ getAllSymbolsOfType SymbolKind.variableKind [Sym.variableSym "a"]
      [Sym.scopeSym "B" [Sym.variableSym "b", Sym.scopeSym "S" [Sym.variableSym "s"]],
       Sym.scopeSym "C" [Sym.variableSym "c"]] := by
  have h := c5_scope_chain_visibility SymbolKind.variableKind "B" "C"
    [Sym.variableSym "a"]
    [Sym.variableSym "b", Sym.scopeSym "S" [Sym.variableSym "s"]]
    [Sym.variableSym "c"]
  constructor
  · rw [h.1]
    rfl
  · exact h.2.2 "S" [Sym.variableSym "s"] (Sym.variableSym "s")
      (by simp) (by simp [symbolsOfKind, Sym.kind]; rfl)
      (by simp [symbolsOfKind, Sym.kind]) (by simp [symbolsOfKind, Sym.kind])
      (by simp [symbolsOfKind, Sym.kind])

/-- C1: evaluation of `suggestVariables` at a token position whose upward
walk reaches the parse-tree root without finding a variable-read node. The
claim (and the spec) say the match text should then be empty, showing every
visible name; the code's walk instead leaves `variable` bound to the root
node, which is truthy, so the typed text `"y"` is used and only `["y"]` is
suggested instead of `["x", "y"]`. The `: ''` branch of
`variable ? position.text : ''` is unreachable (`walkVar_isSome`), which
shows the spec is the intent and the truthiness test a slip. -/
theorem c1_walk_to_root_still_filters_with_typed_text :
    suggestVariables [Sym.variableSym "x", Sym.variableSym "y"]
      { index := 0,
        context := [{ isVariableRead := false, termType := some 5, attached := none },
                    { isVariableRead := false, termType := none, attached := none }],
        text := "y" } = some ["y"] ∧
    (["y"] : List String) ≠ ["x", "y"] := by
  exact ⟨by decide, by decide⟩

/-- C4: when the caller-supplied caret mapper yields nothing, both entry
points return the empty list; the result does not depend on the candidate
engine or the symbol-table builder (both are arbitrary here), so neither is
consulted. -/
theorem c4_unmappable_caret_empty {α β : Type}
    (nl idType : Nat) (vocabD : Nat → Option String) (parseD : String → α)
    (collectD : α → Nat → CandidatesCollection) (stOfD : α → Unit → List Sym)
    (codeD : String) (caretD : CaretPosition)
    (mapperD : α → CaretPosition → Option TokenPosition)
    (tt : KotlinTokenTypes) (vocabK : Nat → Option String) (parseK : String → β)
    (collectK : β → Nat → CandidatesCollection) (stOfK : β → Unit → List Sym)
    (codeK : String) (caretK : CaretPosition)
    (mapperK : β → CaretPosition → Option TokenPosition)
    (hD : mapperD (parseD codeD) caretD = none)
    (hK : mapperK (parseK codeK) caretK = none) :
    getSuggestions nl idType vocabD parseD collectD stOfD codeD caretD mapperD = [] ∧
    getSuggestionsK tt vocabK parseK collectK stOfK codeK caretK mapperK = some [] :=
  ⟨by simp [getSuggestions, hD], by simp [getSuggestionsK, hK]⟩

/-- Witness for C4: with a mapper that yields nothing, both entry points
return the empty suggestion list (for arbitrary sample collaborators). -/
theorem c4_unmappable_caret_empty_witness :
    ((fun (_ : Unit) (_ : CaretPosition) => (none : Option TokenPosition))
        ((fun (_ : String) => ()) "") ⟨0, 0⟩ = none) ∧
    getSuggestions 1 2 sampleVocab (fun _ : String => ()) (fun _ => noTrigCollect)
      (fun _ => xySymbolTableFn) "" ⟨0, 0⟩ (fun _ _ => none) = [] ∧
    getSuggestionsK sampleTT sampleVocab (fun _ : String => ()) (fun _ => trigCollect)
      (fun _ => xySymbolTableFn) "" ⟨0, 0⟩ (fun _ _ => none) = some [] :=
  ⟨rfl,
   (c4_unmappable_caret_empty 1 2 sampleVocab (fun _ : String => ())
      (fun _ => noTrigCollect) (fun _ => xySymbolTableFn) "" ⟨0, 0⟩ (fun _ _ => none)
      sampleTT sampleVocab (fun _ : String => ()) (fun _ => trigCollect)
      (fun _ => xySymbolTableFn) "" ⟨0, 0⟩ (fun _ _ => none) rfl rfl).1,
   (c4_unmappable_caret_empty 1 2 sampleVocab (fun _ : String => ())
      (fun _ => noTrigCollect) (fun _ => xySymbolTableFn) "" ⟨0, 0⟩ (fun _ _ => none)
      sampleTT sampleVocab (fun _ : String => ()) (fun _ => trigCollect)
      (fun _ => xySymbolTableFn) "" ⟨0, 0⟩ (fun _ _ => none) rfl rfl).2⟩

/-- C3: whenever the candidate rules trigger the identifier path and the
identifier path yields a list `ids`, the Kotlin-like translator's result is
exactly `ids` followed by the filtered vocabulary-derived tokens, and the
multiplicity of every string is the sum of its multiplicities in the two
parts — no duplicate is removed, within a part or across the parts. -/
theorem c3_identifier_then_vocabulary_no_dedup (tt : KotlinTokenTypes)
    (vocab : Nat → Option String) (collect : Nat → CandidatesCollection)
    (stFn : Unit → List Sym) (position : TokenPosition) (ids : List String)
    (htrig : tt.RULE_variableRead ∈ (collect position.index).rules ∨
             tt.RULE_suggestArgument ∈ (collect position.index).rules)
    (hsv : suggestVariables (stFn ()) position = some ids) :
    getSuggestionsForParseTreeK tt vocab collect stFn position =
      some (ids ++ filterTokens
        (if isIgnoredContextToken (kotlinIgnored tt) position.context then ""
         else position.text)
        (kotlinRenderedTokens tt vocab (collect position.index).tokens)) ∧
    (∀ s : String,
      (ids ++ filterTokens
        (if isIgnoredContextToken (kotlinIgnored tt) position.context then ""
         else position.text)
        (kotlinRenderedTokens tt vocab (collect position.index).tokens)).count s =
      ids.count s + (filterTokens
        (if isIgnoredContextToken (kotlinIgnored tt) position.context then ""
         else position.text)
        (kotlinRenderedTokens tt vocab (collect position.index).tokens)).count s) := by
  constructor
  · simp [getSuggestionsForParseTreeK, htrig, hsv]
  · intro s
    exact List.count_append s ids _

/-- Witness for C3: two global variables named `val` and a vocabulary token
also rendering as `val`; the result keeps all three copies in order. -/
theorem c3_identifier_then_vocabulary_no_dedup_witness :
    suggestVariables (dupSymbolTableFn ()) posPlain = some ["val", "val"] ∧
    getSuggestionsForParseTreeK sampleTT sampleVocab trigCollect dupSymbolTableFn posPlain =
      some (["val", "val"] ++ filterTokens
        (if isIgnoredContextToken (kotlinIgnored sampleTT) posPlain.context then ""
         else posPlain.text)
        (kotlinRenderedTokens sampleTT sampleVocab (trigCollect posPlain.index).tokens)) ∧
    getSuggestionsForParseTreeK sampleTT sampleVocab trigCollect dupSymbolTableFn posPlain =
      some ["val", "val", "val"] :=
  ⟨by decide,
   (c3_identifier_then_vocabulary_no_dedup sampleTT sampleVocab trigCollect
      dupSymbolTableFn posPlain ["val", "val"] (Or.inl (by decide)) (by decide)).1,
   by decide⟩

/-- C6: in both translators, when the caret's context node is a terminal
whose token type is in the grammar's ignore list (the DSL list is exactly
the newline token), the text matched against the vocabulary-derived
candidates is empty regardless of the typed text, so every rendered
vocabulary candidate passes the filter. -/
theorem c6_ignored_terminal_empty_match_text :
    (∀ (nl idType : Nat) (vocab : Nat → Option String)
        (collect : Nat → CandidatesCollection) (stFn : Unit → List Sym)
        (idx : Nat) (text : String) (n : PNode) (rest : List PNode) (ty : Nat),
      n.termType = some ty → ty ∈ [nl] →
      getSuggestionsForParseTree nl idType vocab collect stFn ⟨idx, n :: rest, text⟩ =
        structurizrRenderedTokens idType vocab (collect idx).tokens) ∧
    (∀ (tt : KotlinTokenTypes) (vocab : Nat → Option String)
        (collect : Nat → CandidatesCollection) (stFn : Unit → List Sym)
        (idx : Nat) (text : String) (n : PNode) (rest : List PNode) (ty : Nat),
      n.termType = some ty → ty ∈ kotlinIgnored tt →
      ∃ ids, getSuggestionsForParseTreeK tt vocab collect stFn ⟨idx, n :: rest, text⟩ =
        some (ids ++ kotlinRenderedTokens tt vocab (collect idx).tokens)) := by
  constructor
  · intro nl idType vocab collect stFn idx text n rest ty hterm hmem
    simp [getSuggestionsForParseTree,
      isIgnoredContextToken_true [nl] n rest ty hterm hmem, filterTokens_empty_text]
  · intro tt vocab collect stFn idx text n rest ty hterm hmem
    by_cases htrig : tt.RULE_variableRead ∈ (collect idx).rules ∨
        tt.RULE_suggestArgument ∈ (collect idx).rules
    · exact ⟨filterTokens text ((resolvedVariableSymbols (stFn ()) (n :: rest)).map Sym.name),
        by simp [getSuggestionsForParseTreeK, htrig, suggestVariables_cons,
          isIgnoredContextToken_true (kotlinIgnored tt) n rest ty hterm hmem,
          filterTokens_empty_text]⟩
    · exact ⟨[], by simp [getSuggestionsForParseTreeK, htrig,
        isIgnoredContextToken_true (kotlinIgnored tt) n rest ty hterm hmem,
        filterTokens_empty_text]⟩

/-- Witness for C6: a caret on a newline terminal (DSL, token type 1) and on
an operator terminal (Kotlin-like, token type 0 < FILE); although `"foo"` is
typed, every vocabulary candidate survives. -/
theorem c6_ignored_terminal_empty_match_text_witness :
    ((termNode 1).termType = some 1 ∧ (1 : Nat) ∈ [1] ∧
      getSuggestionsForParseTree 1 2 sampleVocab noTrigCollect xySymbolTableFn
        ⟨0, [termNode 1], "foo"⟩ =
        structurizrRenderedTokens 2 sampleVocab (noTrigCollect 0).tokens ∧
      getSuggestionsForParseTree 1 2 sampleVocab noTrigCollect xySymbolTableFn
        ⟨0, [termNode 1], "foo"⟩ = ["val"]) ∧
    ((termNode 0).termType = some 0 ∧ (0 : Nat) ∈ kotlinIgnored sampleTT ∧
      (∃ ids, getSuggestionsForParseTreeK sampleTT sampleVocab noTrigCollect
        xySymbolTableFn ⟨0, [termNode 0], "foo"⟩ =
        some (ids ++ kotlinRenderedTokens sampleTT sampleVocab (noTrigCollect 0).tokens)) ∧
      getSuggestionsForParseTreeK sampleTT sampleVocab noTrigCollect xySymbolTableFn
        ⟨0, [termNode 0], "foo"⟩ = some ["val"]) :=
  ⟨⟨by decide, by decide,
    c6_ignored_terminal_empty_match_text.1 1 2 sampleVocab noTrigCollect
      xySymbolTableFn 0 "foo" (termNode 1) [] 1 (by decide) (by decide),
    by decide⟩,
   ⟨by decide, by decide,
    c6_ignored_terminal_empty_match_text.2 sampleTT sampleVocab noTrigCollect
      xySymbolTableFn 0 "foo" (termNode 0) [] 0 (by decide) (by decide),
    by decide⟩⟩

/-- C7: the DSL translator's result never contains identifier-based
suggestions: every string in the result is the lowercased symbolic
vocabulary name of some viable non-identifier token type; every viable
non-identifier token type with a symbolic name contributes its lowercased
name to the vocabulary-derived list; and the result does not depend on the
symbol table at all. -/
theorem c7_dsl_vocabulary_only (nl idType : Nat) (vocab : Nat → Option String)
    (collect : Nat → CandidatesCollection) (stFn : Unit → List Sym)
    (position : TokenPosition) :
    (∀ s, s ∈ getSuggestionsForParseTree nl idType vocab collect stFn position →
      ∃ k, k ∈ (collect position.index).tokens ∧ k ≠ idType ∧
        ∃ nm, vocab k = some nm ∧ s = jsToLowerCase nm) ∧
    (∀ k ∈ (collect position.index).tokens, k ≠ idType →
      ∀ nm, vocab k = some nm →
        jsToLowerCase nm ∈ structurizrRenderedTokens idType vocab
          (collect position.index).tokens) ∧
    (∀ stFn2 : Unit → List Sym,
      getSuggestionsForParseTree nl idType vocab collect stFn position =
        getSuggestionsForParseTree nl idType vocab collect stFn2 position) := by
  refine ⟨?_, ?_, fun stFn2 => rfl⟩
  · intro s hs
    rw [show getSuggestionsForParseTree nl idType vocab collect stFn position =
        filterTokens
          (if isIgnoredContextToken [nl] position.context then "" else position.text)
          (structurizrRenderedTokens idType vocab (collect position.index).tokens)
        from rfl] at hs
    have hs2 := mem_of_mem_filterTokens hs
    rcases List.mem_filterMap.mp hs2 with ⟨k, hk, hrender⟩
    by_cases hki : k = idType
    · rw [if_pos hki] at hrender
      exact Option.noConfusion hrender
    · rw [if_neg hki] at hrender
      cases hv : vocab k with
      | none =>
        rw [hv] at hrender
        exact Option.noConfusion hrender
      | some nm =>
        rw [hv] at hrender
        injection hrender with hsome
        exact ⟨k, hk, hki, nm, hv, hsome.symm⟩
  · intro k hk hki nm hv
    exact List.mem_filterMap.mpr ⟨k, hk, by rw [if_neg hki, hv]⟩

/-- Witness for C7: with the identifier type 60 among the viable tokens, the
DSL translator yields only the lowercased name of the other token (61,
`Fun`); the identifier token contributes nothing. -/
theorem c7_dsl_vocabulary_only_witness :
    ((61 : Nat) ∈ (CandidatesCollection.mk [60, 61] []).tokens ∧ (61 : Nat) ≠ 60 ∧
      sampleVocab 61 = some "Fun" ∧
      jsToLowerCase "Fun" ∈ structurizrRenderedTokens 60 sampleVocab
        (CandidatesCollection.mk [60, 61] []).tokens) ∧
    getSuggestionsForParseTree 1 60 sampleVocab (fun _ => CandidatesCollection.mk [60, 61] [])
      xySymbolTableFn posPlain = ["fun"] :=
  ⟨⟨by decide, by decide, by decide,
    (c7_dsl_vocabulary_only 1 60 sampleVocab (fun _ => CandidatesCollection.mk [60, 61] [])
      xySymbolTableFn posPlain).2.1 61 (by decide) (by decide) "Fun" (by decide)⟩,
   by decide⟩

/-- C8: for every vocabulary whatsoever, the Kotlin-like renderer maps the
`NOT_IN` and `NOT_IS` token types to the literal strings `"!in"` and
`"!is"`; when either type is viable, its literal string is in the rendered
token list. The token-type constants being pairwise distinct (as in the
generated parser) is assumed. -/
theorem c8_negated_operators_literal (tt : KotlinTokenTypes)
    (vocab : Nat → Option String) (tokenKeys : List Nat)
    (h1 : tt.NOT_IN ≠ tt.Identifier) (h2 : tt.NOT_IS ≠ tt.Identifier)
    (h3 : tt.NOT_IS ≠ tt.NOT_IN) :
    kotlinRenderOne tt vocab tt.NOT_IN = some "!in" ∧
    kotlinRenderOne tt vocab tt.NOT_IS = some "!is" ∧
    (tt.NOT_IN ∈ tokenKeys → "!in" ∈ kotlinRenderedTokens tt vocab tokenKeys) ∧
    (tt.NOT_IS ∈ tokenKeys → "!is" ∈ kotlinRenderedTokens tt vocab tokenKeys) := by
  have hin : kotlinRenderOne tt vocab tt.NOT_IN = some "!in" := by
    unfold kotlinRenderOne
    rw [if_neg h1, if_pos rfl]
  have his : kotlinRenderOne tt vocab tt.NOT_IS = some "!is" := by
    unfold kotlinRenderOne
    rw [if_neg h2, if_neg h3, if_pos rfl]
  exact ⟨hin, his,
    fun hm => List.mem_filterMap.mpr ⟨tt.NOT_IN, hm, hin⟩,
    fun hm => List.mem_filterMap.mpr ⟨tt.NOT_IS, hm, his⟩⟩

/-- Witness for C8: even under a vocabulary that names the negated-operator
types `NOT_IN_NAME`/`NOT_IS_NAME`, the renderer emits the literals, and both
literals appear for the viable token list `[51, 52]`. -/
theorem c8_negated_operators_literal_witness :
    (spoofVocab sampleTT.NOT_IN = some "NOT_IN_NAME" ∧
     spoofVocab sampleTT.NOT_IS = some "NOT_IS_NAME") ∧
    kotlinRenderOne sampleTT spoofVocab sampleTT.NOT_IN = some "!in" ∧
    kotlinRenderOne sampleTT spoofVocab sampleTT.NOT_IS = some "!is" ∧
    "!in" ∈ kotlinRenderedTokens sampleTT spoofVocab [51, 52] ∧
    "!is" ∈ kotlinRenderedTokens sampleTT spoofVocab [51, 52] := by
  have h := c8_negated_operators_literal sampleTT spoofVocab [51, 52]
    (by decide) (by decide) (by decide)
  exact ⟨⟨by decide, by decide⟩, h.1, h.2.1,
    h.2.2.1 (by decide), h.2.2.2 (by decide)⟩

/-- C10: the empty-match override for a caret on an ignored terminal applies
only to the vocabulary-derived part: the identifier suggestions are still
filtered with the token position's typed text (which is what the
variable-read walk always selects), while the vocabulary tokens pass
unfiltered. -/
theorem c10_identifier_part_keeps_typed_text (tt : KotlinTokenTypes)
    (vocab : Nat → Option String) (collect : Nat → CandidatesCollection)
    (stFn : Unit → List Sym) (idx : Nat) (text : String)
    (n : PNode) (rest : List PNode) (ty : Nat)
    (hterm : n.termType = some ty) (hign : ty ∈ kotlinIgnored tt)
    (htrig : tt.RULE_variableRead ∈ (collect idx).rules ∨
             tt.RULE_suggestArgument ∈ (collect idx).rules) :
    getSuggestionsForParseTreeK tt vocab collect stFn ⟨idx, n :: rest, text⟩ =
      some (filterTokens text
          ((resolvedVariableSymbols (stFn ()) (n :: rest)).map Sym.name) ++
        kotlinRenderedTokens tt vocab (collect idx).tokens) := by
  simp [getSuggestionsForParseTreeK, htrig, suggestVariables_cons,
    isIgnoredContextToken_true (kotlinIgnored tt) n rest ty hterm hign,
    filterTokens_empty_text]

/-- Witness for C10: the caret sits on an ignored operator terminal with
`"x"` typed; of the visible variables `x` and `y` only `x` survives (the
identifier part is filtered with `"x"`), while the vocabulary token `val`
survives although it does not start with `"x"`. -/
theorem c10_identifier_part_keeps_typed_text_witness :
    ((termNode 0).termType = some 0 ∧ (0 : Nat) ∈ kotlinIgnored sampleTT ∧
      sampleTT.RULE_variableRead ∈ (trigCollect 0).rules) ∧
    getSuggestionsForParseTreeK sampleTT sampleVocab trigCollect xySymbolTableFn
      ⟨0, [termNode 0], "x"⟩ =
      some (filterTokens "x"
          ((resolvedVariableSymbols (xySymbolTableFn ()) [termNode 0]).map Sym.name) ++
        kotlinRenderedTokens sampleTT sampleVocab (trigCollect 0).tokens) ∧
    getSuggestionsForParseTreeK sampleTT sampleVocab trigCollect xySymbolTableFn
      ⟨0, [termNode 0], "x"⟩ = some ["x", "val"] :=
  ⟨⟨by decide, by decide, by decide⟩,
   c10_identifier_part_keeps_typed_text sampleTT sampleVocab trigCollect
     xySymbolTableFn 0 "x" (termNode 0) [] 0 (by decide) (by decide)
     (Or.inl (by decide)),
   by decide⟩

/-- C9 counterexample: the claim says the core never raises for any input,
including a token position whose context node is absent; but with the
variable-read rule viable and an absent context node, the Kotlin-like entry
point's identifier path dereferences the absent node (`variable.parent`), a
`TypeError`, modelled as `none` instead of a returned list. -/
theorem c9_counterexample_absent_context_throws :
    getSuggestionsK sampleTT sampleVocab (fun _ : String => ())
      (fun _ => trigCollect) (fun _ => xySymbolTableFn) "x" ⟨0, 1⟩
      (fun _ _ => some ⟨0, [], "x"⟩) = none := by
  decide

/-- C9 (amended): the Kotlin-like entry point returns a list whenever no
mapped token position combines an absent context node with a viable
identifier-path rule; the DSL pipeline is total by construction (its
embedding returns a plain list), so only this Kotlin-like case can throw. -/
theorem c9_amended_no_throw_otherwise {α : Type} (tt : KotlinTokenTypes)
    (vocab : Nat → Option String) (parse : String → α)
    (collect : α → Nat → CandidatesCollection) (stOf : α → Unit → List Sym)
    (code : String) (caret : CaretPosition)
    (mapper : α → CaretPosition → Option TokenPosition)
    (h : ∀ position : TokenPosition, mapper (parse code) caret = some position →
      position.context ≠ [] ∨
      (tt.RULE_variableRead ∉ (collect (parse code) position.index).rules ∧
       tt.RULE_suggestArgument ∉ (collect (parse code) position.index).rules)) :
    ∃ l, getSuggestionsK tt vocab parse collect stOf code caret mapper = some l := by
  rw [← Option.isSome_iff_exists]
  rcases hm : mapper (parse code) caret with _ | position
  · simp [getSuggestionsK, hm]
  · have hsome := getSuggestionsForParseTreeK_isSome tt vocab
      (collect (parse code)) (stOf (parse code)) position (h position hm)
    simpa [getSuggestionsK, hm] using hsome

/-- Witness for C9 (amended): a mapper that yields a position with a present
context node; the entry point returns a list. -/
theorem c9_amended_no_throw_otherwise_witness :
    ∃ l, getSuggestionsK sampleTT sampleVocab (fun _ : String => ())
      (fun _ => trigCollect) (fun _ => xySymbolTableFn) "x" ⟨0, 1⟩
      (fun _ _ => some posPlain) = some l :=
  c9_amended_no_throw_otherwise sampleTT sampleVocab (fun _ : String => ())
    (fun _ => trigCollect) (fun _ => xySymbolTableFn) "x" ⟨0, 1⟩
    (fun _ _ => some posPlain)
    (fun position hp => by
      injection hp with hpos
      rw [← hpos]
      exact Or.inl (by simp [posPlain]))

end StructurizrCompletion
